import Mathlib

/-!
Shallow embedding of the `jarvis-ai-assistant` API gateway components
(`rate_limiter.py`, `service_registry.py`, `load_balancer.py`, `main.py`)
and proofs about the spec's claims.

Python dicts are modelled as insertion-ordered association lists; Python
floats (`time.time()` values) are modelled as rationals; a `deque` of
timestamps is a list with its head at the front (oldest first).
-/

namespace Gateway

/-- Python dict lookup `d[k]` / `d.get(k)` over an insertion-ordered
association list. -/
def dictGet {β : Type} (d : List (String × β)) (k : String) : Option β :=
  match d with
  | [] => none
  | (k', v) :: rest => if k' = k then some v else dictGet rest k

/-- Python dict assignment `d[k] = v`: updates the entry in place when the
key is present (keeping its position), otherwise appends at the end
(insertion order). -/
def dictSet {β : Type} (d : List (String × β)) (k : String) (v : β) :
    List (String × β) :=
  match d with
  | [] => [(k, v)]
  | (k', v') :: rest =>
      if k' = k then (k, v) :: rest else (k', v') :: dictSet rest k v

/-- Python `del d[k]`: removes the entry for `k` (a dict holds at most one). -/
def dictRemove {β : Type} (d : List (String × β)) (k : String) :
    List (String × β) :=
  match d with
  | [] => []
  | (k', v') :: rest =>
      if k' = k then rest else (k', v') :: dictRemove rest k

/-- The key list of a dict. -/
def dictKeys {β : Type} (d : List (String × β)) : List String :=
  d.map Prod.fst

/-! ## `rate_limiter.py` -/

/-- `RateLimitConfig` (rate_limiter.py lines 15-20). -/
structure RateLimitConfig where
  requests_per_minute : Nat
  burst_limit : Nat := 10
  window_size : ℚ := 60
deriving Repr, DecidableEq

/-- The mutable state of `RateLimiter` (rate_limiter.py lines 22-29):
per-client request-time deques (a `defaultdict`, so a missing client reads
as an empty deque) and the block map `blocked_ips`. -/
structure RateLimiter where
  config : RateLimitConfig
  requests : List (String × List ℚ)
  blocked_ips : List (String × ℚ)
  block_duration : ℚ := 300
deriving Repr, DecidableEq

/-- `RateLimiter.__init__(requests_per_minute)`. -/
def RateLimiter.init (requests_per_minute : Nat) : RateLimiter :=
  { config := { requests_per_minute := requests_per_minute }
    requests := []
    blocked_ips := [] }

/-- Reading `self.requests[client_ip]` from the `defaultdict(deque)`:
missing keys read as the empty deque. -/
def RateLimiter.getRequests (s : RateLimiter) (ip : String) : List ℚ :=
  (dictGet s.requests ip).getD []

/-- The eviction loop of `is_allowed` (rate_limiter.py lines 51-52):
`while request_times and current_time - request_times[0] > window_size:
popleft()` — drops leading timestamps strictly older than the window and
stops at the first recent one. -/
def evictOld (now window : ℚ) : List ℚ → List ℚ
  | [] => []
  | t :: ts => if now - t > window then evictOld now window ts else t :: ts

/-- Core of `RateLimiter.is_allowed` after the block check (rate_limiter.py
lines 47-70): evict old timestamps, check the per-minute limit (on
exceed, block the ip), check the burst limit, otherwise append `now`.
Returns the boolean result paired with the updated state. -/
def RateLimiter.allowCore (s : RateLimiter) (ip : String) (now : ℚ) :
    Bool × RateLimiter :=
  let times := evictOld now s.config.window_size (s.getRequests ip)
  if s.config.requests_per_minute ≤ times.length then
    (false, { s with
      requests := dictSet s.requests ip times
      blocked_ips := dictSet s.blocked_ips ip (now + s.block_duration) })
  else if s.config.burst_limit ≤ (times.filter (fun t => now - t < 10)).length
  then
    (false, { s with requests := dictSet s.requests ip times })
  else
    (true, { s with requests := dictSet s.requests ip (times ++ [now]) })

/-- `RateLimiter.is_allowed(client_ip)` (rate_limiter.py lines 33-74) at
instant `now` (= `time.time()`): if the ip is blocked and the block has not
expired, reject without touching any other state; if the block has expired,
delete it and fall through to the ordinary checks. -/
def RateLimiter.is_allowed (s : RateLimiter) (ip : String) (now : ℚ) :
    Bool × RateLimiter :=
  match dictGet s.blocked_ips ip with
  | some blockUntil =>
      if now < blockUntil then (false, s)
      else
        RateLimiter.allowCore
          { s with blocked_ips := dictRemove s.blocked_ips ip } ip now
  | none => RateLimiter.allowCore s ip now

/-- A sequence of `is_allowed` calls for one client at the given instants,
collecting the boolean results in order together with the final state. -/
def RateLimiter.runCalls (s : RateLimiter) (ip : String) :
    List ℚ → List Bool × RateLimiter
  | [] => ([], s)
  | t :: ts =>
      let r := s.is_allowed ip t
      let rest := r.2.runCalls ip ts
      (r.1 :: rest.1, rest.2)

/-- `RateLimiter.is_blocked(client_ip)` (rate_limiter.py lines 111-122):
reports whether the ip is currently blocked, deleting an expired block as
a side effect. -/
def RateLimiter.is_blocked (s : RateLimiter) (ip : String) (now : ℚ) :
    Bool × RateLimiter :=
  match dictGet s.blocked_ips ip with
  | none => (false, s)
  | some blockUntil =>
      if blockUntil ≤ now then
        (false, { s with blocked_ips := dictRemove s.blocked_ips ip })
      else (true, s)

/-- The `for ip, request_times in self.requests.items()` loop of
`cleanup_expired_entries` (rate_limiter.py lines 203-209) with CPython
semantics: each entry's deque is evicted in place; when an evicted deque is
empty the entry is deleted from the dict, and the next step of the (live)
dict iterator then raises `RuntimeError: dictionary changed size during
iteration`, so every later entry is left untouched.  The exception is
swallowed by the enclosing `except Exception` (lines 214-215). -/
def cleanupRequestsLoop (now window : ℚ) :
    List (String × List ℚ) → List (String × List ℚ)
  | [] => []
  | (ip, ts) :: rest =>
      let ts' := evictOld now window ts
      if ts'.isEmpty then rest
      else (ip, ts') :: cleanupRequestsLoop now window rest

/-- `RateLimiter.cleanup_expired_entries()` (rate_limiter.py lines
188-215): first removes every expired block (this list-then-delete pass
completes), then runs the request-eviction loop above. -/
def RateLimiter.cleanup_expired_entries (s : RateLimiter) (now : ℚ) :
    RateLimiter :=
  { s with
    blocked_ips := s.blocked_ips.filter (fun p => now < p.2)
    requests := cleanupRequestsLoop now s.config.window_size s.requests }

/-! ## `service_registry.py` -/

/-- What a single health probe observes: either the HTTP request raised
(timeout, connection error, ...) or an HTTP response arrived.  A response
body either fails `response.json()` / is not a JSON object — in which case
`data.get("status")` raises and the bare `except` fires — or is an object
whose optional `"status"` field is the given string. -/
inductive JsonBody where
  | notObject : JsonBody
  | obj : Option String → JsonBody
deriving Repr, DecidableEq

/-- Outcome of `client.get(health_url)` inside `_check_service_health`. -/
inductive ProbeOutcome where
  | exc : ProbeOutcome
  | response : Nat → JsonBody → ProbeOutcome
deriving Repr, DecidableEq

/-- `ServiceRegistry._check_service_health` (service_registry.py lines
136-160): any exception ⇒ unhealthy; non-200 ⇒ unhealthy; 200 with a JSON
object ⇒ healthy iff `data.get("status") == "healthy"`; 200 whose body does
not yield an object ⇒ the inner bare `except` sets healthy. -/
def check_service_health (outcome : ProbeOutcome) : Bool :=
  match outcome with
  | .exc => false
  | .response code body =>
      if code = 200 then
        match body with
        | .notObject => true
        | .obj st => st = some "healthy"
      else false

/-- `ServiceInfo` (service_registry.py lines 17-27).  `datetime` instants
are modelled as naturals, response times as rationals. -/
structure ServiceInfo where
  name : String
  url : String
  health_url : String
  registered_at : Nat
  last_health_check : Option Nat
  is_healthy : Bool
  response_time : Option ℚ
  metadata : List (String × String)
deriving Repr, DecidableEq

/-- The state of `ServiceRegistry` (service_registry.py line 33): one dict
from service name to a single `ServiceInfo`. -/
structure ServiceRegistry where
  services : List (String × ServiceInfo)
deriving Repr, DecidableEq

/-- `ServiceRegistry.__init__`. -/
def ServiceRegistry.init : ServiceRegistry := { services := [] }

/-- URL normalisation at the top of `register_service` (lines 45-46):
prefix `http://` unless the url already starts with a scheme. -/
def normalizeUrl (url : String) : String :=
  if url.startsWith "http://" || url.startsWith "https://" then url
  else "http://" ++ url

/-- `ServiceRegistry.register_service(name, url, metadata)`
(service_registry.py lines 41-79) at instant `now`, with the registration
probe's outcome supplied by the environment: builds the `ServiceInfo` and
assigns `self.services[name] = service_info`, overwriting any existing
record under that name.  Returns `True` paired with the new state. -/
def ServiceRegistry.register_service (s : ServiceRegistry) (name url : String)
    (metadata : List (String × String)) (probe : ProbeOutcome) (now : Nat) :
    Bool × ServiceRegistry :=
  let url' := normalizeUrl url
  let health_url := url' ++ "/health"
  let is_healthy := check_service_health probe
  let info : ServiceInfo :=
    { name := name
      url := url'
      health_url := health_url
      registered_at := now
      last_health_check := some now
      is_healthy := is_healthy
      response_time := none
      metadata := metadata }
  (true, { s with services := dictSet s.services name info })

/-- `ServiceRegistry.unregister_service(name)` (lines 81-94). -/
def ServiceRegistry.unregister_service (s : ServiceRegistry) (name : String) :
    Bool × ServiceRegistry :=
  match dictGet s.services name with
  | some _ => (true, { s with services := dictRemove s.services name })
  | none => (false, s)

/-- `ServiceRegistry.get_healthy_services()` (lines 231-237): the names of
the services whose record is marked healthy, in dict order. -/
def ServiceRegistry.get_healthy_services (s : ServiceRegistry) :
    List String :=
  (s.services.filter (fun p => p.2.is_healthy)).map Prod.fst

/-- `ServiceRegistry.get_unhealthy_services()` (lines 239-245). -/
def ServiceRegistry.get_unhealthy_services (s : ServiceRegistry) :
    List String :=
  (s.services.filter (fun p => !p.2.is_healthy)).map Prod.fst

/-- A registration event: the arguments of one `register_service` call
together with what its probe observed. -/
structure RegEvent where
  name : String
  url : String
  metadata : List (String × String)
  probe : ProbeOutcome
  now : Nat
deriving Repr, DecidableEq

/-- Apply a sequence of `register_service` calls to a registry state. -/
def ServiceRegistry.applyRegs (s : ServiceRegistry) :
    List RegEvent → ServiceRegistry
  | [] => s
  | e :: es =>
      ServiceRegistry.applyRegs
        (s.register_service e.name e.url e.metadata e.probe e.now).2 es

/-! ## `load_balancer.py` -/

/-- `ServiceInstance` (load_balancer.py lines 24-32). -/
structure ServiceInstance where
  url : String
  weight : Nat := 1
  active_connections : Nat := 0
  response_time : ℚ := 0
  last_used : ℚ := 0
  is_healthy : Bool := true
deriving Repr, DecidableEq, Inhabited

/-- The parts of the `LoadBalancer` state the claims touch (load_balancer.py
lines 40-41): instance lists per service name and the round-robin
counters. -/
structure LoadBalancer where
  service_instances : List (String × List ServiceInstance)
  round_robin_counters : List (String × Nat)
deriving Repr, DecidableEq

/-- `LoadBalancer.__init__` state. -/
def LoadBalancer.init : LoadBalancer :=
  { service_instances := [], round_robin_counters := [] }

/-- `LoadBalancer.add_service_instance(service_name, url, weight)`
(load_balancer.py lines 157-172): creates the instance, materialises an
empty list when the name is new, and appends unconditionally. -/
def LoadBalancer.add_service_instance (s : LoadBalancer)
    (service_name url : String) (weight : Nat) : Bool × LoadBalancer :=
  let inst : ServiceInstance := { url := url, weight := weight }
  let current := (dictGet s.service_instances service_name).getD []
  (true, { s with
    service_instances :=
      dictSet s.service_instances service_name (current ++ [inst]) })

/-- `LoadBalancer.get_service_instances(service_name)` (lines 230-232). -/
def LoadBalancer.get_service_instances (s : LoadBalancer)
    (service_name : String) : List ServiceInstance :=
  (dictGet s.service_instances service_name).getD []

/-- `LoadBalancer._round_robin_selection(service_name, instances)`
(load_balancer.py lines 104-114) acting on the counters dict: a missing
counter is initialised to 0, the instance at `counter % len(instances)` is
selected, and the counter is stored back as `(counter + 1) %
len(instances)`.  Returns the selection and the updated counters. -/
def roundRobinSelection (counters : List (String × Nat))
    (service_name : String) (instances : List ServiceInstance) :
    ServiceInstance × List (String × Nat) :=
  let counter := (dictGet counters service_name).getD 0
  let selected := instances.getD (counter % instances.length) default
  (selected, dictSet counters service_name ((counter + 1) % instances.length))

/-- `K` consecutive round-robin resolutions against a fixed instance list
(no registry mutation in between), collecting the selections in order. -/
def roundRobinRun (counters : List (String × Nat)) (service_name : String)
    (instances : List ServiceInstance) : Nat → List ServiceInstance
  | 0 => []
  | k + 1 =>
      let step := roundRobinSelection counters service_name instances
      step.1 :: roundRobinRun step.2 service_name instances k

/-! ## `main.py` — `proxy_request` -/

/-- What the upstream `http_client.request(...)` call does: succeeds with a
status code, raises `httpx.TimeoutException`, raises `httpx.ConnectError`,
or raises some other exception. -/
inductive UpstreamOutcome where
  | success : Nat → UpstreamOutcome
  | timeout : UpstreamOutcome
  | connectError : UpstreamOutcome
  | otherError : UpstreamOutcome
deriving Repr, DecidableEq

/-- The Python exceptions that can escape the `try` body of
`proxy_request`.  `fastapi.HTTPException` subclasses `Exception` (and is
neither `httpx.TimeoutException` nor `httpx.ConnectError`). -/
inductive PyExc where
  | httpException : Nat → String → PyExc
  | httpxTimeout : PyExc
  | httpxConnectError : PyExc
  | otherExc : PyExc
deriving Repr, DecidableEq

/-- What `proxy_request` sends back to the caller: a proxied upstream
response, or an `HTTPException` with a status and detail. -/
inductive ProxyResult where
  | ok : Nat → ProxyResult
  | httpError : Nat → String → ProxyResult
deriving Repr, DecidableEq

/-- The `try` body of `proxy_request` (main.py lines 230-264): when load
balancing resolves no url, `raise HTTPException(status_code=503, detail=
"Service ... not available")` — raised inside the `try`; otherwise the
upstream request runs and its exceptions propagate. -/
def proxyTryBody (resolvedUrl : Option String)
    (upstream : UpstreamOutcome) : Except PyExc Nat :=
  match resolvedUrl with
  | none => .error (.httpException 503 "Service not available")
  | some _ =>
      match upstream with
      | .success code => .ok code
      | .timeout => .error .httpxTimeout
      | .connectError => .error .httpxConnectError
      | .otherError => .error .otherExc

/-- The `except` clauses of `proxy_request` (main.py lines 266-274), tried
in order: `httpx.TimeoutException` ⇒ 504, `httpx.ConnectError` ⇒ 503,
`Exception` ⇒ 500.  An `HTTPException` raised inside the `try` matches
none of the first two and is caught by `except Exception`. -/
def proxyHandlers (e : PyExc) : ProxyResult :=
  match e with
  | .httpxTimeout => .httpError 504 "Service timeout"
  | .httpxConnectError => .httpError 503 "Service unavailable"
  | .httpException _ _ => .httpError 500 "Internal server error"
  | .otherExc => .httpError 500 "Internal server error"

/-- `proxy_request` (main.py lines 225-274): run the `try` body, dispatch
any escaping exception to the handlers. -/
def proxy_request (resolvedUrl : Option String)
    (upstream : UpstreamOutcome) : ProxyResult :=
  match proxyTryBody resolvedUrl upstream with
  | .ok code => .ok code
  | .error e => proxyHandlers e

/-! # Dictionary lemmas -/

theorem dictGet_dictSet_self {β : Type} (d : List (String × β)) (k : String)
    (v : β) : dictGet (dictSet d k v) k = some v := by
  induction d with
  | nil => simp [dictSet, dictGet]
  | cons hd tl ih =>
      obtain ⟨k', v'⟩ := hd
      by_cases h : k' = k
      · simp [dictSet, dictGet, h]
      · simp [dictSet, dictGet, h, ih]

theorem dictKeys_dictSet_of_mem {β : Type} {d : List (String × β)}
    {k : String} (v : β) (h : k ∈ dictKeys d) :
    dictKeys (dictSet d k v) = dictKeys d := by
  induction d with
  | nil => simp [dictKeys] at h
  | cons hd tl ih =>
      obtain ⟨k', v'⟩ := hd
      by_cases hk : k' = k
      · simp [dictSet, dictKeys, hk]
      · have htl : k ∈ dictKeys tl := by
          rcases (by simpa [dictKeys] using h :
              k = k' ∨ ∃ x, (k, x) ∈ tl) with h' | h'
          · exact absurd h'.symm hk
          · simpa [dictKeys] using h'
        have ih' := ih htl
        simp only [dictKeys] at ih' ⊢
        simp [dictSet, hk, ih']

theorem dictKeys_dictSet_of_not_mem {β : Type} {d : List (String × β)}
    {k : String} (v : β) (h : k ∉ dictKeys d) :
    dictKeys (dictSet d k v) = dictKeys d ++ [k] := by
  induction d with
  | nil => simp [dictSet, dictKeys]
  | cons hd tl ih =>
      obtain ⟨k', v'⟩ := hd
      have hk : k' ≠ k := by
        intro hk
        exact h (by simp [dictKeys, hk])
      have htl : k ∉ dictKeys tl := by
        intro hm
        exact h (by simp [dictKeys]; right; simpa [dictKeys] using hm)
      have ih' := ih htl
      simp only [dictKeys] at ih' ⊢
      simp [dictSet, hk, ih']

theorem nodup_dictKeys_dictSet {β : Type} {d : List (String × β)}
    (k : String) (v : β) (h : (dictKeys d).Nodup) :
    (dictKeys (dictSet d k v)).Nodup := by
  by_cases hm : k ∈ dictKeys d
  · rw [dictKeys_dictSet_of_mem v hm]; exact h
  · rw [dictKeys_dictSet_of_not_mem v hm]
    simp [List.nodup_append, h, hm]

theorem dict_mem_unique {β : Type} {d : List (String × β)} {k : String}
    {v v' : β} (hnd : (dictKeys d).Nodup) (h1 : (k, v) ∈ d)
    (h2 : (k, v') ∈ d) : v = v' := by
  induction d with
  | nil => simp at h1
  | cons hd tl ih =>
      obtain ⟨k0, v0⟩ := hd
      simp [dictKeys] at hnd
      rcases List.mem_cons.mp h1 with h1' | h1' <;>
        rcases List.mem_cons.mp h2 with h2' | h2'
      · rw [Prod.mk.injEq] at h1' h2'
        rw [h1'.2, h2'.2]
      · exfalso
        rw [Prod.mk.injEq] at h1'
        have hmem : (k0, v') ∈ tl := by rw [← h1'.1]; exact h2'
        exact hnd.1 v' hmem
      · exfalso
        rw [Prod.mk.injEq] at h2'
        have hmem : (k0, v) ∈ tl := by rw [← h2'.1]; exact h1'
        exact hnd.1 v hmem
      · exact ih hnd.2 h1' h2'

/-! # Claim theorems -/

/-- C1: the two upstream failure classes get their own statuses (timeout →
504, connection refusal → 503) and an unexpected error maps to 500, but
the resolution-unavailable outcome (`get_service_url` returning no url, no
healthy instance) does NOT get a distinct status: the 503 raised for it
inside the `try` is caught by `except Exception` and surfaced as the same
500 "Internal server error" as a gateway bug, whatever the upstream would
have done. -/
theorem proxy_no_healthy_instance_is_500 :
    (∀ u, proxy_request none u
        = ProxyResult.httpError 500 "Internal server error") ∧
    proxy_request (some "http://brain-service:8000") UpstreamOutcome.timeout
      = ProxyResult.httpError 504 "Service timeout" ∧
    proxy_request (some "http://brain-service:8000")
        UpstreamOutcome.connectError
      = ProxyResult.httpError 503 "Service unavailable" ∧
    proxy_request (some "http://brain-service:8000")
        UpstreamOutcome.otherError
      = ProxyResult.httpError 500 "Internal server error" ∧
    proxy_request none UpstreamOutcome.timeout
      = proxy_request (some "http://brain-service:8000")
          UpstreamOutcome.otherError :=
  ⟨fun u => by cases u <;> rfl, rfl, rfl, rfl, rfl⟩

/-- C5: the health probe classifies an instance healthy exactly when the
response is HTTP 200 and the body either does not parse as a JSON object
or parses as an object whose `status` field is `"healthy"`; every
exception (timeout, connection error) and every non-200 response is
unhealthy. -/
theorem check_service_health_charact (o : ProbeOutcome) :
    check_service_health o = true ↔
      o = ProbeOutcome.response 200 JsonBody.notObject ∨
      o = ProbeOutcome.response 200 (JsonBody.obj (some "healthy")) := by
  cases o with
  | exc => simp [check_service_health]
  | response code body =>
      cases body with
      | notObject => by_cases h : code = 200 <;> simp [check_service_health, h]
      | obj st => by_cases h : code = 200 <;> simp [check_service_health, h]

/-- C7 counterexample: adding the same address twice under one service name
in the load balancer appends a second instance with the same url, so the
instance list under that name is not pairwise distinct by address. -/
theorem add_same_address_twice_duplicates :
    ((((LoadBalancer.init.add_service_instance "svc" "http://a:1" 1).2
        ).add_service_instance "svc" "http://a:1" 1).2.get_service_instances
        "svc").map ServiceInstance.url = ["http://a:1", "http://a:1"] ∧
    ¬ (((((LoadBalancer.init.add_service_instance "svc" "http://a:1" 1).2
        ).add_service_instance "svc" "http://a:1" 1).2.get_service_instances
        "svc").map ServiceInstance.url).Nodup := by
  constructor
  · rfl
  · decide

/-- C2 counterexample: two registrations under the same name `"svc"` with
distinct addresses `a` and `b` (both probes healthy) leave a registry whose
healthy list is `["svc"]` and unhealthy list is `[]`: neither registered
address appears in either list, so the two lists do not partition the two
registered addresses. -/
theorem same_name_registrations_drop_addresses :
    ServiceRegistry.get_healthy_services
        (((ServiceRegistry.init.register_service "svc" "a:1" []
            (ProbeOutcome.response 200 (JsonBody.obj (some "healthy"))) 0).2
          ).register_service "svc" "b:2" []
            (ProbeOutcome.response 200 (JsonBody.obj (some "healthy"))) 1).2
      = ["svc"] ∧
    ServiceRegistry.get_unhealthy_services
        (((ServiceRegistry.init.register_service "svc" "a:1" []
            (ProbeOutcome.response 200 (JsonBody.obj (some "healthy"))) 0).2
          ).register_service "svc" "b:2" []
            (ProbeOutcome.response 200 (JsonBody.obj (some "healthy"))) 1).2
      = [] ∧
    "http://a:1" ∉ (["svc"] : List String) ∧
    "http://b:2" ∉ (["svc"] : List String) := by
  refine ⟨rfl, rfl, ?_, ?_⟩ <;> decide

/-- C8 failing input, evaluated: at time 100 with window 60, with two
clients `a` and `b` whose histories hold only the stale timestamp 0,
`cleanup_expired_entries` deletes `a`'s entry while iterating the dict, the
next iterator step raises `RuntimeError` (swallowed by the outer `except`),
and `b` keeps its entry `[0]` — a list that is empty once entries older
than the window are evicted, contradicting the claim that no stale list
survives a cleanup call. -/
theorem cleanup_expired_leaves_stale_entry :
    (RateLimiter.cleanup_expired_entries
        { config := { requests_per_minute := 60 }
          requests := [("a", [0]), ("b", [0])]
          blocked_ips := [] } 100).requests = [("b", [0])] ∧
    evictOld 100 60 [0] = [] := by
  constructor
  · show cleanupRequestsLoop 100 60 [("a", [0]), ("b", [0])] = [("b", [0])]
    norm_num [cleanupRequestsLoop, evictOld]
  · norm_num [evictOld]

theorem mem_dictKeys {β : Type} {d : List (String × β)} {k : String} :
    k ∈ dictKeys d ↔ ∃ v, (k, v) ∈ d := by
  simp [dictKeys]

theorem applyRegs_keys_nodup (regs : List RegEvent) (s : ServiceRegistry)
    (h : (dictKeys s.services).Nodup) :
    (dictKeys (s.applyRegs regs).services).Nodup := by
  induction regs generalizing s with
  | nil => exact h
  | cons e es ih =>
      exact ih _ (nodup_dictKeys_dictSet _ _ h)

theorem mem_get_healthy {st : ServiceRegistry} {n : String} :
    n ∈ st.get_healthy_services ↔
      ∃ info, (n, info) ∈ st.services ∧ info.is_healthy = true := by
  simp only [ServiceRegistry.get_healthy_services, List.mem_map,
    List.mem_filter]
  constructor
  · rintro ⟨⟨a, info⟩, ⟨hm, hh⟩, rfl⟩
    exact ⟨info, hm, hh⟩
  · rintro ⟨info, hm, hh⟩
    exact ⟨(n, info), ⟨hm, hh⟩, rfl⟩

theorem mem_get_unhealthy {st : ServiceRegistry} {n : String} :
    n ∈ st.get_unhealthy_services ↔
      ∃ info, (n, info) ∈ st.services ∧ info.is_healthy = false := by
  simp only [ServiceRegistry.get_unhealthy_services, List.mem_map,
    List.mem_filter]
  constructor
  · rintro ⟨⟨a, info⟩, ⟨hm, hh⟩, rfl⟩
    exact ⟨info, hm, by simpa using hh⟩
  · rintro ⟨info, hm, hh⟩
    exact ⟨(n, info), ⟨hm, by simpa using hh⟩, rfl⟩

/-- C2 (amended): after any sequence of `register_service` calls starting
from the empty registry, a service name maps to at most one record (re-
registering a name overwrites its record in place, so earlier addresses
under that name are dropped), and the healthy/unhealthy name lists
partition exactly the registered service names: every registered name is
in exactly one of the two lists. -/
theorem healthy_unhealthy_partition_names (regs : List RegEvent)
    (n : String) :
    (n ∈ dictKeys (ServiceRegistry.init.applyRegs regs).services ↔
      (n ∈ (ServiceRegistry.init.applyRegs regs).get_healthy_services ∨
       n ∈ (ServiceRegistry.init.applyRegs regs).get_unhealthy_services)) ∧
    ¬ (n ∈ (ServiceRegistry.init.applyRegs regs).get_healthy_services ∧
       n ∈ (ServiceRegistry.init.applyRegs regs).get_unhealthy_services) ∧
    (dictKeys (ServiceRegistry.init.applyRegs regs).services).Nodup := by
  have hnd : (dictKeys (ServiceRegistry.init.applyRegs regs).services).Nodup :=
    applyRegs_keys_nodup regs ServiceRegistry.init (by simp [ServiceRegistry.init, dictKeys])
  refine ⟨?_, ?_, hnd⟩
  · constructor
    · intro hmem
      obtain ⟨info, hinfo⟩ := mem_dictKeys.mp hmem
      cases hh : info.is_healthy with
      | true => exact Or.inl (mem_get_healthy.mpr ⟨info, hinfo, hh⟩)
      | false => exact Or.inr (mem_get_unhealthy.mpr ⟨info, hinfo, hh⟩)
    · intro hmem
      rcases hmem with h | h
      · obtain ⟨info, hinfo, _⟩ := mem_get_healthy.mp h
        exact mem_dictKeys.mpr ⟨info, hinfo⟩
      · obtain ⟨info, hinfo, _⟩ := mem_get_unhealthy.mp h
        exact mem_dictKeys.mpr ⟨info, hinfo⟩
  · rintro ⟨h1, h2⟩
    obtain ⟨info, hm1, hh1⟩ := mem_get_healthy.mp h1
    obtain ⟨info', hm2, hh2⟩ := mem_get_unhealthy.mp h2
    have : info = info' := dict_mem_unique hnd hm1 hm2
    rw [this, hh2] at hh1
    exact Bool.false_ne_true hh1

/-- C7 (amended): in the service registry every reachable state maps a
service name to at most one record, and registering under an
already-present name updates that record in place (the key list is
unchanged, so no duplicate is created); the load balancer's
`add_service_instance`, however, appends unconditionally, so instances
under one name need not stay pairwise distinct by address. -/
theorem registry_register_updates_in_place (regs : List RegEvent)
    (e : RegEvent)
    (h : e.name ∈ dictKeys (ServiceRegistry.init.applyRegs regs).services) :
    (dictKeys (ServiceRegistry.init.applyRegs regs).services).Nodup ∧
    dictKeys ((ServiceRegistry.init.applyRegs regs).register_service
        e.name e.url e.metadata e.probe e.now).2.services
      = dictKeys (ServiceRegistry.init.applyRegs regs).services := by
  refine ⟨applyRegs_keys_nodup regs ServiceRegistry.init
    (by simp [ServiceRegistry.init, dictKeys]), ?_⟩
  exact dictKeys_dictSet_of_mem _ h

/-- Witness for the amended C7 theorem: one registration of `"svc"`, then
a re-registration of the same name leaves the key list `["svc"]`. -/
theorem registry_register_updates_in_place_witness :
    ("svc" ∈ dictKeys (ServiceRegistry.init.applyRegs
        [⟨"svc", "a:1", [], ProbeOutcome.exc, 0⟩]).services) ∧
    ((dictKeys (ServiceRegistry.init.applyRegs
        [⟨"svc", "a:1", [], ProbeOutcome.exc, 0⟩]).services).Nodup ∧
      dictKeys ((ServiceRegistry.init.applyRegs
          [⟨"svc", "a:1", [], ProbeOutcome.exc, 0⟩]).register_service
          "svc" "b:2" [] ProbeOutcome.exc 1).2.services
        = dictKeys (ServiceRegistry.init.applyRegs
            [⟨"svc", "a:1", [], ProbeOutcome.exc, 0⟩]).services) :=
  ⟨by decide, registry_register_updates_in_place
      [⟨"svc", "a:1", [], ProbeOutcome.exc, 0⟩]
      ⟨"svc", "b:2", [], ProbeOutcome.exc, 1⟩ (by decide)⟩

/-! # Rate limiter lemmas -/

theorem is_allowed_of_no_block (s : RateLimiter) (ip : String) (now : ℚ)
    (h : dictGet s.blocked_ips ip = none) :
    s.is_allowed ip now = s.allowCore ip now := by
  simp [RateLimiter.is_allowed, h]

theorem is_allowed_blocked (s : RateLimiter) (ip : String) (now u : ℚ)
    (hb : dictGet s.blocked_ips ip = some u) (hlt : now < u) :
    s.is_allowed ip now = (false, s) := by
  simp [RateLimiter.is_allowed, hb, hlt]

theorem is_allowed_expired (s : RateLimiter) (ip : String) (now u : ℚ)
    (hb : dictGet s.blocked_ips ip = some u) (hlt : ¬ now < u) :
    s.is_allowed ip now
      = RateLimiter.allowCore
          { s with blocked_ips := dictRemove s.blocked_ips ip } ip now := by
  simp [RateLimiter.is_allowed, hb, hlt]

theorem allowCore_allows (s : RateLimiter) (ip : String) (now : ℚ)
    (ts : List ℚ)
    (hev : evictOld now s.config.window_size (s.getRequests ip) = ts)
    (hlen : ts.length < s.config.requests_per_minute)
    (hburst : ts.length < s.config.burst_limit) :
    s.allowCore ip now
      = (true, { s with requests := dictSet s.requests ip (ts ++ [now]) }) := by
  simp only [RateLimiter.allowCore]
  rw [hev, if_neg (Nat.not_le.mpr hlen),
    if_neg (Nat.not_le.mpr (lt_of_le_of_lt (List.length_filter_le _ _) hburst))]

theorem allowCore_blocks_rpm (s : RateLimiter) (ip : String) (now : ℚ)
    (ts : List ℚ)
    (hev : evictOld now s.config.window_size (s.getRequests ip) = ts)
    (hlen : s.config.requests_per_minute ≤ ts.length) :
    s.allowCore ip now
      = (false, { s with
          requests := dictSet s.requests ip ts
          blocked_ips := dictSet s.blocked_ips ip (now + s.block_duration) }) := by
  simp only [RateLimiter.allowCore]
  rw [hev, if_pos hlen]

theorem allowCore_blocks_burst (s : RateLimiter) (ip : String) (now : ℚ)
    (ts : List ℚ)
    (hev : evictOld now s.config.window_size (s.getRequests ip) = ts)
    (hlen : ts.length < s.config.requests_per_minute)
    (hburst : s.config.burst_limit
      ≤ (ts.filter (fun t => now - t < 10)).length) :
    s.allowCore ip now
      = (false, { s with requests := dictSet s.requests ip ts }) := by
  simp only [RateLimiter.allowCore]
  rw [hev, if_neg (Nat.not_le.mpr hlen), if_pos hburst]

theorem allowCore_getRequests (s : RateLimiter) (ip : String) (now : ℚ) :
    ((s.allowCore ip now).1 = true →
      RateLimiter.getRequests (s.allowCore ip now).2 ip
        = evictOld now s.config.window_size (s.getRequests ip) ++ [now]) ∧
    ((s.allowCore ip now).1 = false →
      RateLimiter.getRequests (s.allowCore ip now).2 ip
        = evictOld now s.config.window_size (s.getRequests ip)) := by
  simp only [RateLimiter.allowCore]
  by_cases h1 : s.config.requests_per_minute
      ≤ (evictOld now s.config.window_size (s.getRequests ip)).length
  · rw [if_pos h1]
    exact ⟨fun h => by simp at h,
      fun _ => by simp [RateLimiter.getRequests, dictGet_dictSet_self]⟩
  · rw [if_neg h1]
    by_cases h2 : s.config.burst_limit
        ≤ ((evictOld now s.config.window_size (s.getRequests ip)).filter
            (fun t => now - t < 10)).length
    · rw [if_pos h2]
      exact ⟨fun h => by simp at h,
        fun _ => by simp [RateLimiter.getRequests, dictGet_dictSet_self]⟩
    · rw [if_neg h2]
      exact ⟨fun _ => by simp [RateLimiter.getRequests, dictGet_dictSet_self],
        fun h => by simp at h⟩

/-- C9: a rejected `is_allowed` call never appends the current instant to
the client's history — the history afterwards is either untouched (blocked
path) or exactly the old history with timestamps older than the window
evicted (limit/burst paths) — while an allowed call appends exactly the
one timestamp `now` after eviction. -/
theorem is_allowed_budget (s : RateLimiter) (ip : String) (now : ℚ) :
    ((s.is_allowed ip now).1 = true →
      RateLimiter.getRequests (s.is_allowed ip now).2 ip
        = evictOld now s.config.window_size (s.getRequests ip) ++ [now]) ∧
    ((s.is_allowed ip now).1 = false →
      RateLimiter.getRequests (s.is_allowed ip now).2 ip = s.getRequests ip ∨
      RateLimiter.getRequests (s.is_allowed ip now).2 ip
        = evictOld now s.config.window_size (s.getRequests ip)) := by
  cases hb : dictGet s.blocked_ips ip with
  | none =>
      rw [is_allowed_of_no_block s ip now hb]
      have hc := allowCore_getRequests s ip now
      exact ⟨hc.1, fun h => Or.inr (hc.2 h)⟩
  | some blockUntil =>
      by_cases hlt : now < blockUntil
      · rw [is_allowed_blocked s ip now blockUntil hb hlt]
        exact ⟨fun h => by simp at h, fun _ => Or.inl rfl⟩
      · rw [is_allowed_expired s ip now blockUntil hb hlt]
        have hc := allowCore_getRequests
          { s with blocked_ips := dictRemove s.blocked_ips ip } ip now
        exact ⟨hc.1, fun h => Or.inr (hc.2 h)⟩

/-- Witness for C9: from the fresh limiter, the first call is allowed and
appends exactly the timestamp 0. -/
theorem is_allowed_budget_witness :
    (((RateLimiter.init 5).is_allowed "c" 0).1 = true) ∧
    RateLimiter.getRequests ((RateLimiter.init 5).is_allowed "c" 0).2 "c"
      = evictOld 0 (RateLimiter.init 5).config.window_size
          ((RateLimiter.init 5).getRequests "c") ++ [0] :=
  ⟨by decide, (is_allowed_budget (RateLimiter.init 5) "c" 0).1 (by decide)⟩

/-- C10: when a client's stored block-until instant is not in the future,
`is_allowed` deletes the block entry and evaluates the ordinary
sliding-window and burst checks on the block-free state, and `is_blocked`
answers `False` after deleting the entry — no explicit unblock is
needed. -/
theorem expired_block_cleared (s : RateLimiter) (ip : String) (now u : ℚ)
    (hb : dictGet s.blocked_ips ip = some u) (hexp : ¬ now < u) :
    s.is_allowed ip now
      = RateLimiter.allowCore
          { s with blocked_ips := dictRemove s.blocked_ips ip } ip now ∧
    s.is_blocked ip now
      = (false, { s with blocked_ips := dictRemove s.blocked_ips ip }) := by
  constructor
  · simp [RateLimiter.is_allowed, hb, hexp]
  · simp [RateLimiter.is_blocked, hb, not_lt.mp hexp]

/-- Witness for C10: a client blocked until instant 10 calls again at
instant 20; the block entry is dropped and the ordinary checks run (here
they allow the call, since the only history entry is stale). -/
theorem expired_block_cleared_witness :
    (dictGet (RateLimiter.mk { requests_per_minute := 5 } [("c", [1])]
        [("c", 10)] 300).blocked_ips "c" = some 10 ∧ ¬ (20 : ℚ) < 10) ∧
    ((RateLimiter.mk { requests_per_minute := 5 } [("c", [1])]
        [("c", 10)] 300).is_allowed "c" 20
      = RateLimiter.allowCore
          { RateLimiter.mk { requests_per_minute := 5 } [("c", [1])]
              [("c", 10)] 300 with
            blocked_ips := dictRemove [("c", 10)] "c" } "c" 20 ∧
     (RateLimiter.mk { requests_per_minute := 5 } [("c", [1])]
        [("c", 10)] 300).is_blocked "c" 20
      = (false, { RateLimiter.mk { requests_per_minute := 5 } [("c", [1])]
              [("c", 10)] 300 with
            blocked_ips := dictRemove [("c", 10)] "c" })) :=
  ⟨⟨by decide, by decide⟩,
    expired_block_cleared _ "c" 20 10 (by decide) (by decide)⟩

theorem getRequests_single (cfg : RateLimitConfig) (ip : String)
    (l : List ℚ) (b : List (String × ℚ)) (d : ℚ) :
    RateLimiter.getRequests ⟨cfg, [(ip, l)], b, d⟩ ip = l := by
  simp [RateLimiter.getRequests, dictGet]

theorem dictSet_single {β : Type} (ip : String) (v v' : β) :
    dictSet [(ip, v)] ip v' = [(ip, v')] := by
  simp [dictSet]

theorem stepAllowed (cfg : RateLimitConfig) (ip : String) (l ts : List ℚ)
    (now d : ℚ) (hev : evictOld now cfg.window_size l = ts)
    (hlen : ts.length < cfg.requests_per_minute)
    (hburst : ts.length < cfg.burst_limit) :
    RateLimiter.is_allowed ⟨cfg, [(ip, l)], [], d⟩ ip now
      = (true, ⟨cfg, [(ip, ts ++ [now])], [], d⟩) := by
  rw [is_allowed_of_no_block ⟨cfg, [(ip, l)], [], d⟩ ip now rfl,
    allowCore_allows ⟨cfg, [(ip, l)], [], d⟩ ip now ts
      (by rw [getRequests_single]; exact hev) hlen hburst,
    dictSet_single] <;> rfl

theorem stepBlockedRpm (cfg : RateLimitConfig) (ip : String) (l ts : List ℚ)
    (now d : ℚ) (hev : evictOld now cfg.window_size l = ts)
    (hlen : cfg.requests_per_minute ≤ ts.length) :
    RateLimiter.is_allowed ⟨cfg, [(ip, l)], [], d⟩ ip now
      = (false, ⟨cfg, [(ip, ts)], [(ip, now + d)], d⟩) := by
  rw [is_allowed_of_no_block ⟨cfg, [(ip, l)], [], d⟩ ip now rfl,
    allowCore_blocks_rpm ⟨cfg, [(ip, l)], [], d⟩ ip now ts
      (by rw [getRequests_single]; exact hev) hlen,
    dictSet_single] <;> rfl

theorem stepBlockedBurst (cfg : RateLimitConfig) (ip : String)
    (l ts : List ℚ) (now d : ℚ)
    (hev : evictOld now cfg.window_size l = ts)
    (hlen : ts.length < cfg.requests_per_minute)
    (hburst : cfg.burst_limit ≤ (ts.filter (fun t => now - t < 10)).length) :
    RateLimiter.is_allowed ⟨cfg, [(ip, l)], [], d⟩ ip now
      = (false, ⟨cfg, [(ip, ts)], [], d⟩) := by
  rw [is_allowed_of_no_block ⟨cfg, [(ip, l)], [], d⟩ ip now rfl,
    allowCore_blocks_burst ⟨cfg, [(ip, l)], [], d⟩ ip now ts
      (by rw [getRequests_single]; exact hev) hlen hburst,
    dictSet_single] <;> rfl

/-- C3: with `requests_per_minute = 5`, a client with no history makes five
calls inside the 60-second window — all allowed; the sixth call (still
inside the window) is rejected and installs a block until `t6 +
block_duration` (300 s); and any call made before that instant is rejected
with the state unchanged — in particular at instants where the original
sliding window holds fewer than 5 timestamps. -/
theorem five_requests_then_block (ip : String) (t1 t2 t3 t4 t5 t6 t7 : ℚ)
    (h12 : t1 ≤ t2) (h23 : t2 ≤ t3) (h34 : t3 ≤ t4) (h45 : t4 ≤ t5)
    (h56 : t5 ≤ t6) (hwin : t6 ≤ t1 + 60) (h7 : t7 < t6 + 300) :
    ((RateLimiter.init 5).runCalls ip [t1, t2, t3, t4, t5, t6]).1
      = [true, true, true, true, true, false] ∧
    dictGet ((RateLimiter.init 5).runCalls ip
        [t1, t2, t3, t4, t5, t6]).2.blocked_ips ip = some (t6 + 300) ∧
    RateLimiter.is_allowed
        ((RateLimiter.init 5).runCalls ip [t1, t2, t3, t4, t5, t6]).2 ip t7
      = (false,
          ((RateLimiter.init 5).runCalls ip [t1, t2, t3, t4, t5, t6]).2) := by
  have e1 : (RateLimiter.init 5).is_allowed ip t1
      = (true, ⟨⟨5, 10, 60⟩, [(ip, [t1])], [], 300⟩) := by
    rw [is_allowed_of_no_block (RateLimiter.init 5) ip t1 rfl,
      allowCore_allows (RateLimiter.init 5) ip t1 [] rfl
        (by norm_num [RateLimiter.init])
        (by norm_num [RateLimiter.init])] <;> rfl
  have e2 := stepAllowed ⟨5, 10, 60⟩ ip [t1] [t1] t2 300
    (by simp only [evictOld]; rw [if_neg (by linarith)])
    (by norm_num) (by norm_num)
  have e3 := stepAllowed ⟨5, 10, 60⟩ ip [t1, t2] [t1, t2] t3 300
    (by simp only [evictOld]; rw [if_neg (by linarith)])
    (by norm_num) (by norm_num)
  have e4 := stepAllowed ⟨5, 10, 60⟩ ip [t1, t2, t3] [t1, t2, t3] t4 300
    (by simp only [evictOld]; rw [if_neg (by linarith)])
    (by norm_num) (by norm_num)
  have e5 := stepAllowed ⟨5, 10, 60⟩ ip [t1, t2, t3, t4] [t1, t2, t3, t4]
    t5 300 (by simp only [evictOld]; rw [if_neg (by linarith)])
    (by norm_num) (by norm_num)
  have e6 := stepBlockedRpm ⟨5, 10, 60⟩ ip [t1, t2, t3, t4, t5]
    [t1, t2, t3, t4, t5] t6 300
    (by simp only [evictOld]; rw [if_neg (by linarith)]) (by norm_num)
  have hrun : (RateLimiter.init 5).runCalls ip [t1, t2, t3, t4, t5, t6]
      = ([true, true, true, true, true, false],
         ⟨⟨5, 10, 60⟩, [(ip, [t1, t2, t3, t4, t5])], [(ip, t6 + 300)],
           300⟩) := by
    simp only [RateLimiter.runCalls, e1, e2, e3, e4, e5, e6,
      List.cons_append, List.nil_append]
  refine ⟨by rw [hrun], by rw [hrun]; simp [dictGet], ?_⟩
  rw [hrun]
  exact is_allowed_blocked
    ⟨⟨5, 10, 60⟩, [(ip, [t1, t2, t3, t4, t5])], [(ip, t6 + 300)], 300⟩
    ip t7 (t6 + 300) (by simp [dictGet]) h7

/-- Witness for C3: the six calls at instants 0..5 and a later call at
instant 100 (where the window holds no timestamps any more, yet the block
is still in force). -/
theorem five_requests_then_block_witness :
    ((0 : ℚ) ≤ 1 ∧ (1 : ℚ) ≤ 2 ∧ (2 : ℚ) ≤ 3 ∧ (3 : ℚ) ≤ 4 ∧
      (4 : ℚ) ≤ 5 ∧ (5 : ℚ) ≤ 0 + 60 ∧ (100 : ℚ) < 5 + 300) ∧
    (((RateLimiter.init 5).runCalls "c" [0, 1, 2, 3, 4, 5]).1
        = [true, true, true, true, true, false] ∧
      dictGet ((RateLimiter.init 5).runCalls "c"
          [0, 1, 2, 3, 4, 5]).2.blocked_ips "c" = some (5 + 300) ∧
      RateLimiter.is_allowed
          ((RateLimiter.init 5).runCalls "c" [0, 1, 2, 3, 4, 5]).2 "c" 100
        = (false,
            ((RateLimiter.init 5).runCalls "c" [0, 1, 2, 3, 4, 5]).2)) :=
  ⟨by norm_num,
    five_requests_then_block "c" 0 1 2 3 4 5 100 (by norm_num) (by norm_num)
      (by norm_num) (by norm_num) (by norm_num) (by norm_num) (by norm_num)⟩

theorem allowCore_allows_of_filter (s : RateLimiter) (ip : String)
    (now : ℚ) (ts : List ℚ)
    (hev : evictOld now s.config.window_size (s.getRequests ip) = ts)
    (hlen : ts.length < s.config.requests_per_minute)
    (hburst : (ts.filter (fun t => now - t < 10)).length
      < s.config.burst_limit) :
    s.allowCore ip now
      = (true, { s with requests := dictSet s.requests ip (ts ++ [now]) }) := by
  simp only [RateLimiter.allowCore]
  rw [hev, if_neg (Nat.not_le.mpr hlen), if_neg (Nat.not_le.mpr hburst)]

theorem stepAllowedFilter (cfg : RateLimitConfig) (ip : String)
    (l ts : List ℚ) (now d : ℚ)
    (hev : evictOld now cfg.window_size l = ts)
    (hlen : ts.length < cfg.requests_per_minute)
    (hburst : (ts.filter (fun t => now - t < 10)).length < cfg.burst_limit) :
    RateLimiter.is_allowed ⟨cfg, [(ip, l)], [], d⟩ ip now
      = (true, ⟨cfg, [(ip, ts ++ [now])], [], d⟩) := by
  rw [is_allowed_of_no_block ⟨cfg, [(ip, l)], [], d⟩ ip now rfl,
    allowCore_allows_of_filter ⟨cfg, [(ip, l)], [], d⟩ ip now ts
      (by rw [getRequests_single]; exact hev) hlen hburst,
    dictSet_single] <;> rfl

/-- C6: with `burst_limit = 10` and a per-minute limit above 10, eleven
calls inside a 10-second burst from a fresh client yield ten allows and an
eleventh reject; the reject installs no block entry (the block map stays
empty), so a twelfth call made once the burst window has passed (but still
inside the per-minute window) is allowed without waiting out
`block_duration`. -/
theorem burst_reject_places_no_block (ip : String) (r : Nat)
    (u1 u2 u3 u4 u5 u6 u7 u8 u9 u10 u11 u12 : ℚ) (hr : 10 < r)
    (h1 : u1 ≤ u2) (h2 : u2 ≤ u3) (h3 : u3 ≤ u4) (h4 : u4 ≤ u5)
    (h5 : u5 ≤ u6) (h6 : u6 ≤ u7) (h7 : u7 ≤ u8) (h8 : u8 ≤ u9)
    (h9 : u9 ≤ u10) (h10 : u10 ≤ u11) (hb : u11 < u1 + 10)
    (h12a : u10 + 10 ≤ u12) (h12b : u12 ≤ u1 + 60) :
    ((RateLimiter.init r).runCalls ip
        [u1, u2, u3, u4, u5, u6, u7, u8, u9, u10, u11]).1
      = [true, true, true, true, true, true, true, true, true, true,
         false] ∧
    ((RateLimiter.init r).runCalls ip
        [u1, u2, u3, u4, u5, u6, u7, u8, u9, u10, u11]).2.blocked_ips
      = [] ∧
    (RateLimiter.is_allowed ((RateLimiter.init r).runCalls ip
        [u1, u2, u3, u4, u5, u6, u7, u8, u9, u10, u11]).2 ip u12).1
      = true := by
  have e1 : (RateLimiter.init r).is_allowed ip u1
      = (true, ⟨⟨r, 10, 60⟩, [(ip, [u1])], [], 300⟩) := by
    rw [is_allowed_of_no_block (RateLimiter.init r) ip u1 rfl,
      allowCore_allows (RateLimiter.init r) ip u1 [] rfl
        (by show (0 : Nat) < r; omega) (by show (0 : Nat) < 10; omega)]
      <;> rfl
  have e2 := stepAllowed ⟨r, 10, 60⟩ ip [u1] [u1] u2 300
    (by simp only [evictOld]; rw [if_neg (by linarith)])
    (by show (1 : Nat) < r; omega) (by show (1 : Nat) < 10; omega)
  have e3 := stepAllowed ⟨r, 10, 60⟩ ip [u1, u2] [u1, u2] u3 300
    (by simp only [evictOld]; rw [if_neg (by linarith)])
    (by show (2 : Nat) < r; omega) (by show (2 : Nat) < 10; omega)
  have e4 := stepAllowed ⟨r, 10, 60⟩ ip [u1, u2, u3] [u1, u2, u3] u4 300
    (by simp only [evictOld]; rw [if_neg (by linarith)])
    (by show (3 : Nat) < r; omega) (by show (3 : Nat) < 10; omega)
  have e5 := stepAllowed ⟨r, 10, 60⟩ ip [u1, u2, u3, u4] [u1, u2, u3, u4]
    u5 300 (by simp only [evictOld]; rw [if_neg (by linarith)])
    (by show (4 : Nat) < r; omega) (by show (4 : Nat) < 10; omega)
  have e6 := stepAllowed ⟨r, 10, 60⟩ ip [u1, u2, u3, u4, u5]
    [u1, u2, u3, u4, u5] u6 300
    (by simp only [evictOld]; rw [if_neg (by linarith)])
    (by show (5 : Nat) < r; omega) (by show (5 : Nat) < 10; omega)
  have e7 := stepAllowed ⟨r, 10, 60⟩ ip [u1, u2, u3, u4, u5, u6]
    [u1, u2, u3, u4, u5, u6] u7 300
    (by simp only [evictOld]; rw [if_neg (by linarith)])
    (by show (6 : Nat) < r; omega) (by show (6 : Nat) < 10; omega)
  have e8 := stepAllowed ⟨r, 10, 60⟩ ip [u1, u2, u3, u4, u5, u6, u7]
    [u1, u2, u3, u4, u5, u6, u7] u8 300
    (by simp only [evictOld]; rw [if_neg (by linarith)])
    (by show (7 : Nat) < r; omega) (by show (7 : Nat) < 10; omega)
  have e9 := stepAllowed ⟨r, 10, 60⟩ ip [u1, u2, u3, u4, u5, u6, u7, u8]
    [u1, u2, u3, u4, u5, u6, u7, u8] u9 300
    (by simp only [evictOld]; rw [if_neg (by linarith)])
    (by show (8 : Nat) < r; omega) (by show (8 : Nat) < 10; omega)
  have e10 := stepAllowed ⟨r, 10, 60⟩ ip
    [u1, u2, u3, u4, u5, u6, u7, u8, u9]
    [u1, u2, u3, u4, u5, u6, u7, u8, u9] u10 300
    (by simp only [evictOld]; rw [if_neg (by linarith)])
    (by show (9 : Nat) < r; omega) (by show (9 : Nat) < 10; omega)
  have hfil : ([u1, u2, u3, u4, u5, u6, u7, u8, u9, u10].filter
      (fun t => u11 - t < 10)) = [u1, u2, u3, u4, u5, u6, u7, u8, u9, u10] := by
    rw [List.filter_eq_self]
    intro a ha
    simp only [List.mem_cons, List.not_mem_nil, or_false] at ha
    rcases ha with rfl | rfl | rfl | rfl | rfl | rfl | rfl | rfl | rfl | rfl
      <;> simp only [decide_eq_true_eq] <;> linarith
  have e11 := stepBlockedBurst ⟨r, 10, 60⟩ ip
    [u1, u2, u3, u4, u5, u6, u7, u8, u9, u10]
    [u1, u2, u3, u4, u5, u6, u7, u8, u9, u10] u11 300
    (by simp only [evictOld]; rw [if_neg (by linarith)])
    (by show (10 : Nat) < r; omega)
    (by rw [hfil]; show (10 : Nat) ≤ 10; omega)
  have hrun : (RateLimiter.init r).runCalls ip
      [u1, u2, u3, u4, u5, u6, u7, u8, u9, u10, u11]
      = ([true, true, true, true, true, true, true, true, true, true,
          false],
         ⟨⟨r, 10, 60⟩, [(ip, [u1, u2, u3, u4, u5, u6, u7, u8, u9, u10])],
           [], 300⟩) := by
    simp only [RateLimiter.runCalls, e1, e2, e3, e4, e5, e6, e7, e8, e9,
      e10, e11, List.cons_append, List.nil_append]
  have hfil12 : ([u1, u2, u3, u4, u5, u6, u7, u8, u9, u10].filter
      (fun t => u12 - t < 10)) = [] := by
    rw [List.filter_eq_nil_iff]
    intro a ha
    simp only [List.mem_cons, List.not_mem_nil, or_false] at ha
    rcases ha with rfl | rfl | rfl | rfl | rfl | rfl | rfl | rfl | rfl | rfl
      <;> simp only [decide_eq_true_eq, not_lt] <;> linarith
  have e12 := stepAllowedFilter ⟨r, 10, 60⟩ ip
    [u1, u2, u3, u4, u5, u6, u7, u8, u9, u10]
    [u1, u2, u3, u4, u5, u6, u7, u8, u9, u10] u12 300
    (by simp only [evictOld]; rw [if_neg (by linarith)])
    (by show (10 : Nat) < r; omega)
    (by rw [hfil12]; show (0 : Nat) < 10; omega)
  exact ⟨by rw [hrun], by rw [hrun], by rw [hrun, e12]⟩

/-- Witness for C6: eleven calls at instants 0..9 and 9.5 (all within 10
seconds), then a twelfth call at instant 20 ≥ 9 + 10. -/
theorem burst_reject_places_no_block_witness :
    ((10 : Nat) < 11 ∧ (0 : ℚ) ≤ 1 ∧ (1 : ℚ) ≤ 2 ∧ (2 : ℚ) ≤ 3 ∧
      (3 : ℚ) ≤ 4 ∧ (4 : ℚ) ≤ 5 ∧ (5 : ℚ) ≤ 6 ∧ (6 : ℚ) ≤ 7 ∧
      (7 : ℚ) ≤ 8 ∧ (8 : ℚ) ≤ 9 ∧ (9 : ℚ) ≤ 19 / 2 ∧
      (19 / 2 : ℚ) < 0 + 10 ∧ (9 : ℚ) + 10 ≤ 20 ∧ (20 : ℚ) ≤ 0 + 60) ∧
    (((RateLimiter.init 11).runCalls "c"
        [0, 1, 2, 3, 4, 5, 6, 7, 8, 9, 19 / 2]).1
      = [true, true, true, true, true, true, true, true, true, true,
         false] ∧
    ((RateLimiter.init 11).runCalls "c"
        [0, 1, 2, 3, 4, 5, 6, 7, 8, 9, 19 / 2]).2.blocked_ips = [] ∧
    (RateLimiter.is_allowed ((RateLimiter.init 11).runCalls "c"
        [0, 1, 2, 3, 4, 5, 6, 7, 8, 9, 19 / 2]).2 "c" 20).1 = true) :=
  ⟨by norm_num,
    burst_reject_places_no_block "c" 11 0 1 2 3 4 5 6 7 8 9 (19 / 2) 20
      (by norm_num) (by norm_num) (by norm_num) (by norm_num) (by norm_num)
      (by norm_num) (by norm_num) (by norm_num) (by norm_num) (by norm_num)
      (by norm_num) (by norm_num) (by norm_num) (by norm_num)⟩

/-! # Round-robin arithmetic -/

theorem mod_hit_eq (c M i : Nat) (hM : 0 < M) (hi : i < M) :
    (c + (M + i - c % M) % M) % M = i := by
  have hcm : c % M < M := Nat.mod_lt _ hM
  rw [← Nat.mod_add_mod, Nat.add_mod_mod]
  have h1 : c % M + (M + i - c % M) = M + i := by omega
  rw [h1, Nat.add_mod_left, Nat.mod_eq_of_lt hi]

theorem mod_hit_iff (c M i r : Nat) (hM : 0 < M) (hi : i < M) (hr : r < M) :
    (c + r) % M = i ↔ r = (M + i - c % M) % M := by
  constructor
  · intro h
    have hk0 : (c + (M + i - c % M) % M) % M = i := mod_hit_eq c M i hM hi
    have heq : (c + r) % M = (c + (M + i - c % M) % M) % M := by rw [h, hk0]
    have hmeq : r ≡ (M + i - c % M) % M [MOD M] :=
      Nat.ModEq.add_left_cancel' c heq
    have h2 : r % M = (M + i - c % M) % M % M := hmeq
    rwa [Nat.mod_eq_of_lt hr, Nat.mod_mod_of_dvd] at h2
    exact dvd_rfl
  · rintro rfl
    exact mod_hit_eq c M i hM hi

theorem count_window (c M i : Nat) (hM : 0 < M) (hi : i < M) :
    ∀ r, r ≤ M →
      ((List.range r).map (fun k => (c + k) % M)).count i
        = if (M + i - c % M) % M < r then 1 else 0 := by
  intro r
  induction r with
  | zero => intro _; simp
  | succ r ih =>
      intro hr
      rw [List.range_succ, List.map_append, List.count_append,
        ih (Nat.le_of_succ_le hr)]
      simp only [List.map_cons, List.map_nil, List.count_cons,
        List.count_nil, beq_iff_eq]
      have hk0M : (M + i - c % M) % M < M := Nat.mod_lt _ hM
      by_cases hbr : (c + r) % M = i
      · have hrk : r = (M + i - c % M) % M :=
          (mod_hit_iff c M i r hM hi (Nat.lt_of_succ_le hr)).mp hbr
        rw [if_pos hbr, if_neg (by omega), if_pos (by omega)]
      · have hrk : r ≠ (M + i - c % M) % M := by
          intro hrk
          exact hbr ((mod_hit_iff c M i r hM hi (Nat.lt_of_succ_le hr)).mpr
            hrk)
        rw [if_neg hbr]
        by_cases hlt : (M + i - c % M) % M < r
        · rw [if_pos hlt, if_pos (by omega)]
        · rw [if_neg hlt, if_neg (by omega)]

theorem count_add_window (c M i K : Nat) (hM : 0 < M) (hi : i < M) :
    ((List.range (K + M)).map (fun k => (c + k) % M)).count i
      = ((List.range K).map (fun k => (c + k) % M)).count i + 1 := by
  rw [List.range_add, List.map_append, List.count_append]
  congr 1
  rw [List.map_map]
  have hcomp : ((fun k => (c + k) % M) ∘ (fun x => K + x))
      = fun x => ((c + K) + x) % M := by
    funext x
    simp only [Function.comp]
    congr 1
    omega
  rw [hcomp, count_window (c + K) M i hM hi M le_rfl,
    if_pos (Nat.mod_lt _ hM)]

theorem count_blocks (c M i : Nat) (hM : 0 < M) (hi : i < M) :
    ∀ q r, r < M →
      ((List.range (M * q + r)).map (fun k => (c + k) % M)).count i
        = q + if (M + i - c % M) % M < r then 1 else 0 := by
  intro q
  induction q with
  | zero =>
      intro r hr
      simpa using count_window c M i hM hi r (le_of_lt hr)
  | succ q ih =>
      intro r hr
      have hsplit : M * (q + 1) + r = (M * q + r) + M := by ring
      rw [hsplit, count_add_window c M i _ hM hi, ih r hr]
      omega

theorem count_floor_or_ceil_gen (c M i q r : Nat) (hM : 0 < M) (hi : i < M)
    (hr : r < M) :
    ((List.range (M * q + r)).map (fun k => (c + k) % M)).count i
        = (M * q + r) / M ∨
    ((List.range (M * q + r)).map (fun k => (c + k) % M)).count i
        = ((M * q + r) + M - 1) / M := by
  have hcount := count_blocks c M i hM hi q r hr
  have hfloor : (M * q + r) / M = q := by
    rw [Nat.mul_add_div hM, Nat.div_eq_of_lt hr, Nat.add_zero]
  by_cases hk : (M + i - c % M) % M < r
  · right
    rw [hcount, if_pos hk]
    have hsplit : (M * q + r) + M - 1 = M * (q + 1) + (r + M - 1 - M) := by
      rw [Nat.mul_succ]
      omega
    rw [hsplit, Nat.mul_add_div hM, Nat.div_eq_of_lt (by omega), Nat.add_zero]
  · left
    rw [hcount, if_neg hk, hfloor, Nat.add_zero]

theorem count_floor_or_ceil (c M i K : Nat) (hM : 0 < M) (hi : i < M) :
    ((List.range K).map (fun k => (c + k) % M)).count i = K / M ∨
    ((List.range K).map (fun k => (c + k) % M)).count i
      = (K + M - 1) / M := by
  have h := count_floor_or_ceil_gen c M i (K / M) (K % M) hM hi
    (Nat.mod_lt _ hM)
  rwa [Nat.div_add_mod K M] at h

theorem roundRobinRun_eq_map (name : String)
    (instances : List ServiceInstance) (K : Nat) :
    ∀ counters : List (String × Nat),
      roundRobinRun counters name instances K
        = (List.range K).map (fun k =>
            instances.getD
              (((dictGet counters name).getD 0 + k) % instances.length)
              default) := by
  induction K with
  | zero => intro _; rfl
  | succ K ih =>
      intro counters
      rw [List.range_succ_eq_map, List.map_cons, List.map_map]
      simp only [roundRobinRun, roundRobinSelection]
      rw [ih (dictSet counters name
        (((dictGet counters name).getD 0 + 1) % instances.length)),
        dictGet_dictSet_self]
      simp only [Option.getD_some]
      have htail : (fun k => instances.getD
            ((((dictGet counters name).getD 0 + 1) % instances.length + k)
              % instances.length) default)
          = ((fun k => instances.getD
                (((dictGet counters name).getD 0 + k) % instances.length)
                default) ∘ Nat.succ) := by
        funext k
        simp only [Function.comp]
        congr 1
        rw [Nat.mod_add_mod]
        congr 1
        omega
      rw [htail]
      congr 1

theorem count_getD (instances : List ServiceInstance)
    (hno : instances.Nodup) (hM : 0 < instances.length) (i : Nat)
    (hi : i < instances.length) (c K : Nat) :
    ((List.range K).map (fun k =>
        instances.getD ((c + k) % instances.length) default)).count
      (instances.getD i default)
      = ((List.range K).map
          (fun k => (c + k) % instances.length)).count i := by
  rw [List.count, List.count, List.countP_map, List.countP_map]
  apply List.countP_congr
  intro k _
  simp only [Function.comp, beq_iff_eq]
  constructor
  · intro h
    have ha : (c + k) % instances.length < instances.length :=
      Nat.mod_lt _ hM
    rw [List.getD_eq_get _ _ ha, List.getD_eq_get _ _ hi] at h
    have hfin := (hno.get_inj_iff).mp h
    exact congrArg Fin.val hfin
  · intro h
    rw [h]

/-- C4: under round-robin, `K` consecutive resolutions against a fixed
list of `M` healthy, pairwise-distinct instances select each instance
either `⌊K/M⌋` or `⌈K/M⌉` times; the counter stored back after any
selection is `(counter + 1) % M`, hence always below the current instance
count, and the selected element sits at index `counter % M`, in range for
every list length. -/
theorem round_robin_fair_and_in_range (counters : List (String × Nat))
    (name : String) (instances : List ServiceInstance) (K i : Nat)
    (hM : 0 < instances.length) (hno : instances.Nodup)
    (hi : i < instances.length) :
    ((roundRobinRun counters name instances K).count
        (instances.getD i default) = K / instances.length ∨
     (roundRobinRun counters name instances K).count
        (instances.getD i default)
       = (K + instances.length - 1) / instances.length) ∧
    (dictGet (roundRobinSelection counters name instances).2 name
        = some (((dictGet counters name).getD 0 + 1) % instances.length) ∧
      ((dictGet counters name).getD 0 + 1) % instances.length
        < instances.length) ∧
    (roundRobinSelection counters name instances).1
      = instances.getD
          ((dictGet counters name).getD 0 % instances.length) default ∧
    (dictGet counters name).getD 0 % instances.length
      < instances.length := by
  refine ⟨?_, ⟨?_, Nat.mod_lt _ hM⟩, rfl, Nat.mod_lt _ hM⟩
  · rw [roundRobinRun_eq_map, count_getD instances hno hM i hi]
    exact count_floor_or_ceil _ _ i K hM hi
  · simp only [roundRobinSelection]
    exact dictGet_dictSet_self counters name _

/-- Witness for C4: five resolutions over two distinct healthy instances
starting from an empty counter map: the first instance is chosen
`⌈5/2⌉ = 3` times, the counter is stored as `1 % 2 = 1 < 2`, and the
selection is the element at index `0 % 2 = 0`. -/
theorem round_robin_fair_and_in_range_witness :
    ((0 : Nat) < ([⟨"http://a", 1, 0, 0, 0, true⟩,
        ⟨"http://b", 1, 0, 0, 0, true⟩] : List ServiceInstance).length ∧
      ([⟨"http://a", 1, 0, 0, 0, true⟩,
        ⟨"http://b", 1, 0, 0, 0, true⟩] : List ServiceInstance).Nodup ∧
      0 < ([⟨"http://a", 1, 0, 0, 0, true⟩,
        ⟨"http://b", 1, 0, 0, 0, true⟩] : List ServiceInstance).length) ∧
    (((roundRobinRun [] "svc" [⟨"http://a", 1, 0, 0, 0, true⟩,
          ⟨"http://b", 1, 0, 0, 0, true⟩] 5).count
        (([⟨"http://a", 1, 0, 0, 0, true⟩,
          ⟨"http://b", 1, 0, 0, 0, true⟩] : List ServiceInstance).getD 0
            default)
        = 5 / ([⟨"http://a", 1, 0, 0, 0, true⟩,
            ⟨"http://b", 1, 0, 0, 0, true⟩] : List ServiceInstance).length ∨
      (roundRobinRun [] "svc" [⟨"http://a", 1, 0, 0, 0, true⟩,
          ⟨"http://b", 1, 0, 0, 0, true⟩] 5).count
        (([⟨"http://a", 1, 0, 0, 0, true⟩,
          ⟨"http://b", 1, 0, 0, 0, true⟩] : List ServiceInstance).getD 0
            default)
        = (5 + ([⟨"http://a", 1, 0, 0, 0, true⟩,
              ⟨"http://b", 1, 0, 0, 0, true⟩] : List ServiceInstance).length
            - 1) / ([⟨"http://a", 1, 0, 0, 0, true⟩,
              ⟨"http://b", 1, 0, 0, 0, true⟩] :
                List ServiceInstance).length) ∧
      (dictGet (roundRobinSelection [] "svc"
            [⟨"http://a", 1, 0, 0, 0, true⟩,
             ⟨"http://b", 1, 0, 0, 0, true⟩]).2 "svc"
          = some (((dictGet [] "svc").getD 0 + 1)
              % ([⟨"http://a", 1, 0, 0, 0, true⟩,
                  ⟨"http://b", 1, 0, 0, 0, true⟩] :
                    List ServiceInstance).length) ∧
        ((dictGet [] "svc").getD 0 + 1)
            % ([⟨"http://a", 1, 0, 0, 0, true⟩,
                ⟨"http://b", 1, 0, 0, 0, true⟩] :
                  List ServiceInstance).length
          < ([⟨"http://a", 1, 0, 0, 0, true⟩,
              ⟨"http://b", 1, 0, 0, 0, true⟩] :
                List ServiceInstance).length) ∧
      (roundRobinSelection [] "svc" [⟨"http://a", 1, 0, 0, 0, true⟩,
          ⟨"http://b", 1, 0, 0, 0, true⟩]).1
        = ([⟨"http://a", 1, 0, 0, 0, true⟩,
            ⟨"http://b", 1, 0, 0, 0, true⟩] :
              List ServiceInstance).getD
            ((dictGet [] "svc").getD 0
              % ([⟨"http://a", 1, 0, 0, 0, true⟩,
                  ⟨"http://b", 1, 0, 0, 0, true⟩] :
                    List ServiceInstance).length) default ∧
      (dictGet [] "svc").getD 0
          % ([⟨"http://a", 1, 0, 0, 0, true⟩,
              ⟨"http://b", 1, 0, 0, 0, true⟩] :
                List ServiceInstance).length
        < ([⟨"http://a", 1, 0, 0, 0, true⟩,
            ⟨"http://b", 1, 0, 0, 0, true⟩] :
              List ServiceInstance).length) :=
  ⟨⟨by decide, by decide, by decide⟩,
    round_robin_fair_and_in_range [] "svc"
      [⟨"http://a", 1, 0, 0, 0, true⟩, ⟨"http://b", 1, 0, 0, 0, true⟩]
      5 0 (by decide) (by decide) (by decide)⟩

end Gateway
